import Mathlib

/-!
Shallow embedding of the offline-first persistence core of the card-scan
application: the IndexedDB-backed local store (`OfflineStorageService`),
the reconciling facade (`EnhancedStorageService`) and the remote-store
duplicate filter (`StorageService.checkForDuplicates`).

Modelling conventions:
- A business card is the subset of `BusinessCardData` fields that the
  embedded operations actually read (id, name, phone, mobile, userId,
  timestamp); all remaining optional attributes are passed through
  wholesale by the embedded code paths and are omitted.
- ISO-8601 timestamp strings are modelled by their parsed epoch value
  (the result of `Date.getTime`), since the code only ever compares the
  parsed values.
- An IndexedDB object store is a list of records with unique keys
  (keyPath `id`); `getAll` returns the records sorted by key ascending,
  which we model with `List.insertionSort` over the Lean `String` order
  (IndexedDB compares string keys by code unit; for the inputs of the
  development the two orders agree).
- `crypto.randomUUID()` and `Date.now()` results are explicit inputs.
- Remote (Firestore) calls are oracles: a function giving, per attempt,
  either the saved card returned by the server or a thrown error.
-/

/-- Embedding of the `BusinessCardData` record (`src/types/index.ts`),
restricted to the fields read by the embedded operations. -/
structure BusinessCard where
  id : Option String
  name : Option String
  phone : Option String
  mobile : Option String
  userId : Option String
  timestamp : Option Nat
deriving DecidableEq

/-- Embedding of the `PendingUpload` record of
`src/services/offline-storage-service.ts`. -/
structure PendingUpload where
  id : String
  cardData : BusinessCard
  userId : String
  timestamp : Nat
  retryCount : Nat
deriving DecidableEq

/-- The two IndexedDB object stores of `CardScanDB`: `cards` and
`pendingUploads`. -/
structure DBState where
  cards : List BusinessCard
  pending : List PendingUpload
deriving DecidableEq

/-- JavaScript truthiness of an optional string: `undefined` and the
empty string are falsy. -/
def truthy : Option String → Bool
  | none => false
  | some s => !(s == "")

/-- The key a `cards`-store record is stored under (keyPath `id`). -/
def cardKey (c : BusinessCard) : String :=
  c.id.getD ""

/-- IndexedDB `put` on an object store with the given key path: replace
the record with the same key if present, else append. -/
def putBy (key : α → String) (l : List α) (x : α) : List α :=
  if l.any (fun r => key r == key x) then
    l.map (fun r => if key r == key x then x else r)
  else
    l ++ [x]

/-- IndexedDB `delete` on an object store with the given key path. -/
def deleteBy (key : α → String) (l : List α) (k : String) : List α :=
  l.filter (fun r => !(key r == k))

/-- IndexedDB `get` on an object store with the given key path. -/
def findBy (key : α → String) (l : List α) (k : String) : Option α :=
  l.find? (fun r => key r == k)

/-- IndexedDB `put` on the `cards` store. -/
def cardsPut (l : List BusinessCard) (c : BusinessCard) : List BusinessCard :=
  putBy cardKey l c

/-- IndexedDB `delete` on the `cards` store. -/
def cardsDelete (l : List BusinessCard) (k : String) : List BusinessCard :=
  deleteBy cardKey l k

/-- IndexedDB `get` on the `cards` store. -/
def cardsFind (l : List BusinessCard) (k : String) : Option BusinessCard :=
  findBy cardKey l k

/-- IndexedDB `put` on the `pendingUploads` store. -/
def pendPut (l : List PendingUpload) (p : PendingUpload) : List PendingUpload :=
  putBy PendingUpload.id l p

/-- IndexedDB `delete` on the `pendingUploads` store. -/
def pendDelete (l : List PendingUpload) (i : String) : List PendingUpload :=
  deleteBy PendingUpload.id l i

/-- IndexedDB `get` on the `pendingUploads` store. -/
def pendFind (l : List PendingUpload) (i : String) : Option PendingUpload :=
  findBy PendingUpload.id l i

/-- Strict lexicographic comparison of character lists by code value:
the order IndexedDB uses on string keys. -/
def charListLt : List Char → List Char → Bool
  | _, [] => false
  | [], _ :: _ => true
  | a :: as, b :: bs =>
      if a.toNat < b.toNat then true
      else if b.toNat < a.toNat then false
      else charListLt as bs

/-- Strict key order on strings. -/
def strLt (a b : String) : Bool :=
  charListLt a.data b.data

/-- Reflexive key order on strings: not strictly greater. -/
def strLE (a b : String) : Bool :=
  !(strLt b a)

/-- Key order on the `pendingUploads` store (IndexedDB sorts records by
key ascending). -/
def pendLE (p q : PendingUpload) : Prop :=
  strLE p.id q.id = true

instance : DecidableRel pendLE :=
  fun p q => inferInstanceAs (Decidable (strLE p.id q.id = true))

/-- Records of the `pendingUploads` store in the order `getAll` returns
them: sorted by key ascending. -/
def sortPending (l : List PendingUpload) : List PendingUpload :=
  List.insertionSort pendLE l

/-- Key order on the `cards` store. -/
def cardKeyLE (c d : BusinessCard) : Prop :=
  strLE (cardKey c) (cardKey d) = true

instance : DecidableRel cardKeyLE :=
  fun c d => inferInstanceAs (Decidable (strLE (cardKey c) (cardKey d) = true))

/-- Comparator of `getCachedCards`: newest first, by
`new Date(x.timestamp || 0).getTime()` (timestamps modelled by their
parsed epoch value). -/
def cardTimeDesc (c d : BusinessCard) : Prop :=
  d.timestamp.getD 0 ≤ c.timestamp.getD 0

instance : DecidableRel cardTimeDesc :=
  fun c d => inferInstanceAs (Decidable (d.timestamp.getD 0 ≤ c.timestamp.getD 0))

namespace OfflineStorageService

/-- Embedding of `OfflineStorageService.cacheCard`
(`src/services/offline-storage-service.ts:190`): no-op when the id is
falsy, else `put` into the `cards` store. -/
def cacheCard (db : DBState) (card : BusinessCard) : DBState :=
  if truthy card.id then
    { db with cards := cardsPut db.cards card }
  else
    db

/-- Embedding of `OfflineStorageService.getCachedCards`
(`src/services/offline-storage-service.ts:84`): the userId index entries
(sorted by primary key), then the stable JavaScript sort by timestamp
descending. -/
def getCachedCards (db : DBState) (userId : String) : List BusinessCard :=
  List.insertionSort cardTimeDesc
    (List.insertionSort cardKeyLE
      (db.cards.filter (fun c => c.userId == some userId)))

/-- Embedding of `OfflineStorageService.addPendingUpload`
(`src/services/offline-storage-service.ts:104`). The generated
`crypto.randomUUID()` and the current time are explicit inputs; the
queued payload is the card with its id removed, so the server assigns a
fresh one. The source uses `store.add`, which rejects on a duplicate
key; callers always supply fresh UUIDs, so the upsert model coincides. -/
def addPendingUpload (db : DBState) (userId : String) (cardData : BusinessCard)
    (uuid : String) (now : Nat) : DBState :=
  let p : PendingUpload :=
    ⟨uuid, { cardData with id := none }, userId, now, 0⟩
  { db with pending := pendPut db.pending p }

/-- Embedding of `OfflineStorageService.getPendingUploads`
(`src/services/offline-storage-service.ts:131`): all pending records
(optionally filtered by owner) in IndexedDB `getAll` order, i.e. sorted
by key ascending. -/
def getPendingUploads (db : DBState) (userId : Option String) : List PendingUpload :=
  match userId with
  | some u => sortPending (db.pending.filter (fun p => p.userId == u))
  | none => sortPending db.pending

/-- Embedding of `OfflineStorageService.removePendingUpload`
(`src/services/offline-storage-service.ts:152`). -/
def removePendingUpload (db : DBState) (pendingId : String) : DBState :=
  { db with pending := pendDelete db.pending pendingId }

/-- The in-place `pendingUpload.retryCount += 1` of `updateRetryCount`. -/
def bumpRetry (q : PendingUpload) : PendingUpload :=
  { q with retryCount := q.retryCount + 1 }

/-- Embedding of `OfflineStorageService.updateRetryCount`
(`src/services/offline-storage-service.ts:165`): fetch the stored
record, increment its `retryCount` in place, resolve silently when the
id is absent. -/
def updateRetryCount (db : DBState) (pendingId : String) : DBState :=
  { db with pending :=
      db.pending.map (fun q => if q.id == pendingId then bumpRetry q else q) }

/-- Embedding of `OfflineStorageService.deleteCachedCard`
(`src/services/offline-storage-service.ts:205`). -/
def deleteCachedCard (db : DBState) (cardId : String) : DBState :=
  { db with cards := cardsDelete db.cards cardId }

end OfflineStorageService

/-- Outcome of one `StorageService.saveCard` remote call: the saved card
returned by the server, or a thrown error. -/
inductive RemoteResult where
  | ok (savedCard : BusinessCard)
  | err
deriving DecidableEq

/-- A remote-create oracle for the sync loop: the outcome of
`StorageService.saveCard(pending.userId, pending.cardData)` for each
pending item processed (the oracle sees the whole snapshot item, so the
outcome may vary between attempts of the same item). -/
def Remote : Type :=
  PendingUpload → RemoteResult

namespace OfflineStorageService

/-- One iteration of the `syncPendingUploads` loop body
(`src/services/offline-storage-service.ts:243`): on success cache the
saved card and dequeue; on failure bump the stored retry count and
dequeue only when the snapshot retry count has already reached 3. -/
def syncStep (remote : Remote) (db : DBState) (pending : PendingUpload) : DBState :=
  match remote pending with
  | RemoteResult.ok savedCard =>
      removePendingUpload (cacheCard db savedCard) pending.id
  | RemoteResult.err =>
      let db1 := updateRetryCount db pending.id
      if pending.retryCount ≥ 3 then removePendingUpload db1 pending.id else db1

/-- The `for (const pending of pendingUploads)` loop of
`syncPendingUploads`, returning the final state together with the ids
attempted, in order (the first statement of each iteration is the
remote call, so every snapshot item is attempted exactly once). -/
def syncLoop (remote : Remote) (db : DBState) : List PendingUpload → DBState × List String
  | [] => (db, [])
  | p :: rest =>
      let out := syncLoop remote (syncStep remote db p) rest
      (out.1, p.id :: out.2)

/-- Embedding of `OfflineStorageService.syncPendingUploads`
(`src/services/offline-storage-service.ts:236`): no-op when offline,
else one full drain pass over the `getPendingUploads()` snapshot. -/
def syncPendingUploads (online : Bool) (remote : Remote) (db : DBState) : DBState :=
  if online then (syncLoop remote db (getPendingUploads db none)).1 else db

/-- The ids a drain pass attempts, in processing order. -/
def syncAttempts (online : Bool) (remote : Remote) (db : DBState) : List String :=
  if online then (syncLoop remote db (getPendingUploads db none)).2 else []

/-- Iterated drain passes (each pass with the same remote oracle). -/
def drainN (remote : Remote) : Nat → DBState → DBState
  | 0, db => db
  | n + 1, db => drainN remote n (syncPendingUploads true remote db)

end OfflineStorageService

/-- Character-list version of `String.prototype.startsWith`. -/
def listIsInitial : List Char → List Char → Bool
  | [], _ => true
  | _ :: _, [] => false
  | a :: as, b :: bs => (a == b) && listIsInitial as bs

/-- Model of `s.startsWith(marker)` on the underlying characters. -/
def strStartsWith (s marker : String) : Bool :=
  listIsInitial marker.data s.data

/-- Digit extraction of the duplicate checkers:
`s.replace(/\D/g, "")`. -/
def stripNonDigits (s : String) : String :=
  String.mk (s.data.filter Char.isDigit)

/-- JavaScript `[phone, mobile].filter(Boolean)`: drop `undefined` and
empty strings. -/
def truthyList (l : List (Option String)) : List String :=
  l.filterMap (fun o =>
    match o with
    | some s => if s == "" then none else some s
    | none => none)

/-- The name rule shared verbatim by
`EnhancedStorageService.checkDuplicatesOffline` and
`StorageService.checkForDuplicates`: both names truthy and equal after
`toLowerCase().trim()`. -/
def nameMatch (existingCard cardData : BusinessCard) : Bool :=
  truthy existingCard.name && truthy cardData.name &&
    ((existingCard.name.getD "").toLower.trim == (cardData.name.getD "").toLower.trim)

/-- The phone rule shared verbatim by both duplicate checkers: some pair
from the two truthy {phone, mobile} lists agrees after stripping
non-digits. -/
def phoneMatch (cardData existingCard : BusinessCard) : Bool :=
  (truthyList [cardData.phone, cardData.mobile]).any (fun phone =>
    (truthyList [existingCard.phone, existingCard.mobile]).any (fun existingPhone =>
      (!(phone == "")) && (!(existingPhone == "")) &&
        (stripNonDigits phone == stripNonDigits existingPhone)))

/-- The per-record duplicate predicate used (textually identically) by
`EnhancedStorageService.checkDuplicatesOffline`
(`src/services/enhanced-storage-service.ts:175`) and
`StorageService.checkForDuplicates` (`src/unnamed/part_004:333`):
name match OR phone match. -/
def isDuplicate (cardData existingCard : BusinessCard) : Bool :=
  nameMatch existingCard cardData || phoneMatch cardData existingCard

namespace StorageService

/-- Embedding of `StorageService.checkForDuplicates`
(`src/unnamed/part_004:329`). The remote listing outcome is an oracle:
`some corpus` when `getCards` resolves, `none` when it throws. The
surrounding try/catch turns any thrown error into an empty result, so
the function itself never throws. -/
def checkForDuplicates (remoteCards : Option (List BusinessCard))
    (cardData : BusinessCard) : List BusinessCard :=
  match remoteCards with
  | some allCards => allCards.filter (fun existingCard => isDuplicate cardData existingCard)
  | none => []

end StorageService

namespace EnhancedStorageService

open OfflineStorageService

/-- Embedding of `EnhancedStorageService.checkDuplicatesOffline`
(`src/services/enhanced-storage-service.ts:172`): the duplicate filter
over the cached corpus of the owner. -/
def checkDuplicatesOffline (db : DBState) (userId : String)
    (cardData : BusinessCard) : List BusinessCard :=
  (getCachedCards db userId).filter (fun existingCard => isDuplicate cardData existingCard)

/-- Embedding of `EnhancedStorageService.checkForDuplicates`
(`src/services/enhanced-storage-service.ts:157`). When online it awaits
`StorageService.checkForDuplicates`, which never rejects (it returns an
empty list on internal failure), so the catch branch that would fall
back to the cache is unreachable for remote-listing failures. -/
def checkForDuplicates (online : Bool) (remoteCards : Option (List BusinessCard))
    (db : DBState) (userId : String) (cardData : BusinessCard) : List BusinessCard :=
  if online then
    StorageService.checkForDuplicates remoteCards cardData
  else
    checkDuplicatesOffline db userId cardData

/-- Embedding of `EnhancedStorageService.saveCardOffline`
(`src/services/enhanced-storage-service.ts:34`): build the offline card
under the fresh `offline_` temp id, enqueue the original payload, cache
the offline card, return it. -/
def saveCardOffline (db : DBState) (userId : String) (cardData : BusinessCard)
    (tempUuid pendUuid : String) (now : Nat) : BusinessCard × DBState :=
  let tempId := "offline_" ++ tempUuid
  let offlineCard : BusinessCard :=
    { cardData with id := some tempId, timestamp := some (cardData.timestamp.getD now) }
  let db1 := OfflineStorageService.addPendingUpload db userId cardData pendUuid now
  let db2 := OfflineStorageService.cacheCard db1 offlineCard
  (offlineCard, db2)

/-- Embedding of `EnhancedStorageService.saveCard`
(`src/services/enhanced-storage-service.ts:12`): when online try the
remote create and cache the returned card; when the remote create
throws, or when offline, fall back to `saveCardOffline`. -/
def saveCard (online : Bool) (remoteCreate : BusinessCard → RemoteResult)
    (db : DBState) (userId : String) (cardData : BusinessCard)
    (tempUuid pendUuid : String) (now : Nat) : BusinessCard × DBState :=
  if online then
    match remoteCreate cardData with
    | RemoteResult.ok savedCard => (savedCard, OfflineStorageService.cacheCard db savedCard)
    | RemoteResult.err => saveCardOffline db userId cardData tempUuid pendUuid now
  else
    saveCardOffline db userId cardData tempUuid pendUuid now

/-- Outcome of `EnhancedStorageService.updateCard`: resolved, rejected
with the rethrown remote error, or rejected with the offline
"changes saved locally" error. -/
inductive UpdateResult where
  | ok
  | errRemote
  | errOffline
deriving DecidableEq

/-- Embedding of `EnhancedStorageService.updateCard`
(`src/services/enhanced-storage-service.ts:109`): ids with the
`offline_` marker update only the cache and resolve; online updates go
remote then cache, rethrowing remote failures; offline updates cache
and then throw the not-synced error. -/
def updateCard (online : Bool) (remoteUpdate : BusinessCard → Bool)
    (db : DBState) (cardData : BusinessCard) : UpdateResult × DBState :=
  if strStartsWith (cardData.id.getD "") "offline_" then
    (UpdateResult.ok, OfflineStorageService.cacheCard db cardData)
  else if online then
    if remoteUpdate cardData then
      (UpdateResult.ok, OfflineStorageService.cacheCard db cardData)
    else
      (UpdateResult.errRemote, db)
  else
    (UpdateResult.errOffline, OfflineStorageService.cacheCard db cardData)

end EnhancedStorageService

/-! ### Key-order lemmas -/

theorem charListLt_asymm : ∀ as bs, charListLt as bs = true → charListLt bs as = false
  | as, [], h => by cases as <;> simp [charListLt] at h
  | [], _ :: _, _ => rfl
  | a :: as, b :: bs, h => by
    by_cases hab : a.toNat < b.toNat
    · have hba : ¬ b.toNat < a.toNat := by omega
      simp [charListLt, hab, hba]
    · by_cases hba : b.toNat < a.toNat
      · simp [charListLt, hab, hba] at h
      · simp [charListLt, hab, hba] at h ⊢
        exact charListLt_asymm as bs h

theorem charListLt_le_trans :
    ∀ as bs cs, charListLt bs as = false → charListLt cs bs = false →
      charListLt cs as = false
  | as, bs, [], h1, h2 => by
    cases as with
    | nil => rfl
    | cons a as1 =>
      cases bs with
      | nil => simp [charListLt] at h1
      | cons b bs1 => simp [charListLt] at h2
  | [], bs, c :: cs, _, _ => rfl
  | a :: as, [], c :: cs, h1, h2 => by simp [charListLt] at h1
  | a :: as, b :: bs, c :: cs, h1, h2 => by
    have hba : ¬ b.toNat < a.toNat := by
      intro h; simp [charListLt, h] at h1
    have hcb : ¬ c.toNat < b.toNat := by
      intro h; simp [charListLt, h] at h2
    have hca : ¬ c.toNat < a.toNat := by omega
    by_cases hac : a.toNat < c.toNat
    · simp [charListLt, hca, hac]
    · have hab : ¬ a.toNat < b.toNat := by omega
      have hbc : ¬ b.toNat < c.toNat := by omega
      simp [charListLt, hba, hab] at h1
      simp [charListLt, hcb, hbc] at h2
      simp [charListLt, hca, hac]
      exact charListLt_le_trans as bs cs h1 h2

theorem pendLE_total : ∀ p q : PendingUpload, pendLE p q ∨ pendLE q p := by
  intro p q
  unfold pendLE strLE
  cases h : strLt q.id p.id with
  | false => exact Or.inl rfl
  | true =>
    refine Or.inr ?_
    have := charListLt_asymm q.id.data p.id.data h
    simp [strLt, this]

theorem pendLE_trans : ∀ p q r : PendingUpload, pendLE p q → pendLE q r → pendLE p r := by
  intro p q r h1 h2
  unfold pendLE strLE at h1 h2 ⊢
  simp only [Bool.not_eq_true'] at h1 h2 ⊢
  exact charListLt_le_trans p.id.data q.id.data r.id.data h1 h2

/-! ### Generic object-store lemmas -/

theorem find?_append_right (p : α → Bool) (l1 l2 : List α) (h : l1.find? p = none) :
    (l1 ++ l2).find? p = l2.find? p := by
  induction l1 with
  | nil => rfl
  | cons a l ih =>
    cases hpa : p a with
    | true => simp [List.find?, hpa] at h
    | false =>
      simp only [List.find?, hpa] at h
      simpa [List.find?, hpa] using ih h

theorem findBy_eq_none_iff (key : α → String) (l : List α) (k : String) :
    findBy key l k = none ↔ ∀ r ∈ l, key r ≠ k := by
  simp [findBy, List.find?_eq_none]

theorem findBy_mapReplace (key : α → String) (x : α) :
    ∀ l : List α, l.any (fun r => key r == key x) = true →
      (l.map (fun r => if key r == key x then x else r)).find?
        (fun r => key r == key x) = some x := by
  intro l
  induction l with
  | nil => intro h; simp at h
  | cons a l ih =>
    intro h
    cases ha : (key a == key x) with
    | true => simp [List.find?, ha]
    | false =>
      simp only [List.any_cons, ha, Bool.false_or] at h
      simpa [List.find?, ha] using ih h

theorem findBy_putBy_self (key : α → String) (l : List α) (x : α) :
    findBy key (putBy key l x) (key x) = some x := by
  unfold findBy putBy
  cases h : l.any (fun r => key r == key x) with
  | true =>
    rw [if_pos (rfl : (true : Bool) = true)]
    exact findBy_mapReplace key x l h
  | false =>
    rw [if_neg (by simp [h])]
    rw [find?_append_right]
    · simp [List.find?]
    · rw [List.find?_eq_none]
      intro r hr
      have := (List.any_eq_false).mp h r hr
      simpa using this

theorem findBy_deleteBy_self (key : α → String) (l : List α) (k : String) :
    findBy key (deleteBy key l k) k = none := by
  rw [findBy, List.find?_eq_none]
  intro r hr
  have := (List.mem_filter.mp hr).2
  simpa using this

theorem findBy_deleteBy_other (key : α → String) (l : List α) (k j : String)
    (h : j ≠ k) : findBy key (deleteBy key l k) j = findBy key l j := by
  unfold findBy deleteBy
  induction l with
  | nil => rfl
  | cons a l ih =>
    by_cases ha : key a = k
    · have hpred : (key a == j) = false := by simp [ha, Ne.symm h]
      have hdrop : (!(key a == k)) = false := by simp [ha]
      simp [List.filter_cons, List.find?, hdrop, hpred, ih]
    · have hkeep : (!(key a == k)) = true := by simp [ha]
      cases hj : (key a == j) with
      | true => simp [List.filter_cons, List.find?, hkeep, hj]
      | false => simp [List.filter_cons, List.find?, hkeep, hj, ih]

theorem ids_deleteBy_sublist (key : α → String) (l : List α) (k : String) :
    ((deleteBy key l k).map key).Sublist (l.map key) :=
  (List.filter_sublist l).map key

/-! ### Retry-bump lemmas -/

open OfflineStorageService

@[simp]
theorem bumpRetry_id (q : PendingUpload) : (bumpRetry q).id = q.id := rfl

theorem bump_pred_comp (i j : String) :
    ((fun r : PendingUpload => r.id == j) ∘
        (fun q : PendingUpload => if q.id == i then bumpRetry q else q)) =
      (fun q : PendingUpload => q.id == j) := by
  funext q
  by_cases hq : (q.id == i) = true <;> simp [Function.comp, hq]

theorem pendFind_bump_other (l : List PendingUpload) (i j : String) (h : j ≠ i) :
    pendFind (l.map (fun q => if q.id == i then bumpRetry q else q)) j = pendFind l j := by
  unfold pendFind findBy
  rw [List.find?_map, bump_pred_comp]
  cases hfind : List.find? (fun q : PendingUpload => q.id == j) l with
  | none => rfl
  | some q0 =>
    have hq0b : (q0.id == j) = true :=
      @List.find?_some PendingUpload (fun q => q.id == j) q0 l hfind
    have hq0 : q0.id = j := eq_of_beq hq0b
    have hne : (q0.id == i) = false := by simp [hq0, h]
    simp [Option.map, hne]

theorem pendFind_bump_self (l : List PendingUpload) (i : String) :
    pendFind (l.map (fun q => if q.id == i then bumpRetry q else q)) i =
      (pendFind l i).map bumpRetry := by
  unfold pendFind findBy
  rw [List.find?_map, bump_pred_comp]
  cases hfind : List.find? (fun q : PendingUpload => q.id == i) l with
  | none => rfl
  | some q0 =>
    have hq0 : (q0.id == i) = true :=
      @List.find?_some PendingUpload (fun q => q.id == i) q0 l hfind
    simp only [Option.map, hq0, if_pos]

theorem ids_bump (l : List PendingUpload) (i : String) :
    (l.map (fun q => if q.id == i then bumpRetry q else q)).map PendingUpload.id =
      l.map PendingUpload.id := by
  rw [List.map_map]
  apply List.map_congr_left
  intro a _
  by_cases hq : (a.id == i) = true <;> simp [Function.comp, hq]

/-! ### Sync-step lemmas -/

@[simp]
theorem cacheCard_pending (db : DBState) (c : BusinessCard) :
    (cacheCard db c).pending = db.pending := by
  unfold cacheCard
  split <;> rfl

@[simp]
theorem updateRetryCount_cards (db : DBState) (i : String) :
    (updateRetryCount db i).cards = db.cards := rfl

@[simp]
theorem removePendingUpload_cards (db : DBState) (i : String) :
    (removePendingUpload db i).cards = db.cards := rfl

theorem syncStep_pending_find_other (R : Remote) (db : DBState) (q : PendingUpload)
    (j : String) (h : j ≠ q.id) :
    pendFind (syncStep R db q).pending j = pendFind db.pending j := by
  unfold syncStep
  cases R q with
  | ok c =>
    show pendFind (pendDelete (cacheCard db c).pending q.id) j = _
    rw [cacheCard_pending]
    exact findBy_deleteBy_other PendingUpload.id db.pending q.id j h
  | err =>
    by_cases hc : q.retryCount ≥ 3
    · simp only [hc, if_pos]
      show pendFind (pendDelete (updateRetryCount db q.id).pending q.id) j = _
      have h1 : pendFind (pendDelete (updateRetryCount db q.id).pending q.id) j =
          pendFind (updateRetryCount db q.id).pending j :=
        findBy_deleteBy_other PendingUpload.id _ q.id j h
      rw [h1]
      exact pendFind_bump_other db.pending q.id j h
    · simp only [hc, if_neg, not_false_iff]
      exact pendFind_bump_other db.pending q.id j h

theorem syncStep_pending_find_self (R : Remote) (db : DBState) (q : PendingUpload)
    (hq : R q = RemoteResult.err) :
    pendFind (syncStep R db q).pending q.id =
      if q.retryCount ≥ 3 then none else (pendFind db.pending q.id).map bumpRetry := by
  unfold syncStep
  rw [hq]
  by_cases hc : q.retryCount ≥ 3
  · simp only [hc, if_pos]
    exact findBy_deleteBy_self PendingUpload.id _ q.id
  · simp only [hc, if_neg, not_false_iff]
    exact pendFind_bump_self db.pending q.id

theorem syncStep_cards_err (R : Remote) (db : DBState) (q : PendingUpload)
    (hq : R q = RemoteResult.err) : (syncStep R db q).cards = db.cards := by
  unfold syncStep
  rw [hq]
  by_cases hc : q.retryCount ≥ 3 <;> simp [hc]

theorem syncStep_ids_sublist (R : Remote) (db : DBState) (q : PendingUpload) :
    ((syncStep R db q).pending.map PendingUpload.id).Sublist
      (db.pending.map PendingUpload.id) := by
  unfold syncStep
  cases R q with
  | ok c =>
    show ((pendDelete (cacheCard db c).pending q.id).map PendingUpload.id).Sublist _
    rw [cacheCard_pending]
    exact ids_deleteBy_sublist PendingUpload.id db.pending q.id
  | err =>
    by_cases hc : q.retryCount ≥ 3
    · simp only [hc, if_pos]
      show ((pendDelete (updateRetryCount db q.id).pending q.id).map PendingUpload.id).Sublist _
      have h1 := ids_deleteBy_sublist PendingUpload.id (updateRetryCount db q.id).pending q.id
      have h2 : (updateRetryCount db q.id).pending.map PendingUpload.id =
          db.pending.map PendingUpload.id := ids_bump db.pending q.id
      rw [h2] at h1
      exact h1
    · simp only [hc, if_neg, not_false_iff]
      show ((db.pending.map (fun r => if r.id == q.id then bumpRetry r else r)).map
        PendingUpload.id).Sublist (db.pending.map PendingUpload.id)
      rw [ids_bump db.pending q.id]

/-! ### Drain-pass lemmas -/

theorem foldl_pending_find_untouched (R : Remote) :
    ∀ (L : List PendingUpload) (db : DBState) (j : String),
      (∀ q ∈ L, q.id ≠ j) →
      pendFind (L.foldl (syncStep R) db).pending j = pendFind db.pending j := by
  intro L
  induction L with
  | nil => intro db j _; rfl
  | cons q L ih =>
    intro db j h
    have hq : j ≠ q.id := Ne.symm (h q (List.mem_cons_self q L))
    calc pendFind ((q :: L).foldl (syncStep R) db).pending j
        = pendFind (L.foldl (syncStep R) (syncStep R db q)).pending j := rfl
      _ = pendFind (syncStep R db q).pending j :=
          ih (syncStep R db q) j (fun r hr => h r (List.mem_cons_of_mem q hr))
      _ = pendFind db.pending j := syncStep_pending_find_other R db q j hq

theorem foldl_cards_err (R : Remote) :
    ∀ (L : List PendingUpload) (db : DBState),
      (∀ q ∈ L, R q = RemoteResult.err) →
      (L.foldl (syncStep R) db).cards = db.cards := by
  intro L
  induction L with
  | nil => intro db _; rfl
  | cons q L ih =>
    intro db h
    calc ((q :: L).foldl (syncStep R) db).cards
        = (L.foldl (syncStep R) (syncStep R db q)).cards := rfl
      _ = (syncStep R db q).cards :=
          ih (syncStep R db q) (fun r hr => h r (List.mem_cons_of_mem q hr))
      _ = db.cards := syncStep_cards_err R db q (h q (List.mem_cons_self q L))

theorem foldl_ids_sublist (R : Remote) :
    ∀ (L : List PendingUpload) (db : DBState),
      ((L.foldl (syncStep R) db).pending.map PendingUpload.id).Sublist
        (db.pending.map PendingUpload.id) := by
  intro L
  induction L with
  | nil => intro db; exact List.Sublist.refl _
  | cons q L ih =>
    intro db
    exact (ih (syncStep R db q)).trans (syncStep_ids_sublist R db q)

theorem foldl_pending_find_self (R : Remote) :
    ∀ (L : List PendingUpload) (db : DBState) (p : PendingUpload),
      (L.map PendingUpload.id).Nodup → p ∈ L →
      pendFind db.pending p.id = some p →
      (∀ q ∈ L, R q = RemoteResult.err) →
      pendFind (L.foldl (syncStep R) db).pending p.id =
        if p.retryCount ≥ 3 then none else some (bumpRetry p) := by
  intro L
  induction L with
  | nil => intro db p _ hmem; exact absurd hmem (List.not_mem_nil p)
  | cons q L ih =>
    intro db p hnd hmem hp hR
    have hnd1 : q.id ∉ L.map PendingUpload.id := (List.nodup_cons.mp hnd).1
    have hnd2 : (L.map PendingUpload.id).Nodup := (List.nodup_cons.mp hnd).2
    rcases List.mem_cons.mp hmem with hpq | hpL
    · subst hpq
      have hstep := syncStep_pending_find_self R db p (hR p (List.mem_cons_self p L))
      rw [hp] at hstep
      have huntouched : ∀ r ∈ L, r.id ≠ p.id := by
        intro r hr hre
        exact hnd1 (hre ▸ List.mem_map_of_mem PendingUpload.id hr)
      calc pendFind ((p :: L).foldl (syncStep R) db).pending p.id
          = pendFind (L.foldl (syncStep R) (syncStep R db p)).pending p.id := rfl
        _ = pendFind (syncStep R db p).pending p.id :=
            foldl_pending_find_untouched R L (syncStep R db p) p.id huntouched
        _ = if p.retryCount ≥ 3 then none else some (bumpRetry p) := by
            rw [hstep]
            by_cases hc : p.retryCount ≥ 3 <;> simp [hc]
    · have hqp : p.id ≠ q.id := by
        intro hre
        exact hnd1 (hre ▸ List.mem_map_of_mem PendingUpload.id hpL)
      have hp1 : pendFind (syncStep R db q).pending p.id = some p := by
        rw [syncStep_pending_find_other R db q p.id hqp]
        exact hp
      exact ih (syncStep R db q) p hnd2 hpL hp1
        (fun r hr => hR r (List.mem_cons_of_mem q hr))

theorem syncLoop_fst (R : Remote) :
    ∀ (L : List PendingUpload) (db : DBState),
      (syncLoop R db L).1 = L.foldl (syncStep R) db := by
  intro L
  induction L with
  | nil => intro db; rfl
  | cons q L ih => intro db; simp [syncLoop, ih]

theorem syncLoop_snd (R : Remote) :
    ∀ (L : List PendingUpload) (db : DBState),
      (syncLoop R db L).2 = L.map PendingUpload.id := by
  intro L
  induction L with
  | nil => intro db; rfl
  | cons q L ih => intro db; simp [syncLoop, ih]

theorem syncPendingUploads_eq_foldl (R : Remote) (db : DBState) :
    syncPendingUploads true R db = (sortPending db.pending).foldl (syncStep R) db := by
  show (syncLoop R db (getPendingUploads db none)).1 = _
  rw [syncLoop_fst]
  rfl

theorem syncAttempts_eq (R : Remote) (db : DBState) :
    syncAttempts true R db = (sortPending db.pending).map PendingUpload.id := by
  show (syncLoop R db (getPendingUploads db none)).2 = _
  rw [syncLoop_snd]
  rfl

theorem snapshot_ids_nodup (db : DBState)
    (hnd : (db.pending.map PendingUpload.id).Nodup) :
    ((sortPending db.pending).map PendingUpload.id).Nodup := by
  have hperm : List.Perm ((sortPending db.pending).map PendingUpload.id)
      (db.pending.map PendingUpload.id) :=
    (List.perm_insertionSort pendLE db.pending).map PendingUpload.id
  exact (List.Perm.nodup_iff hperm).mpr hnd

theorem drain_pending_find (R : Remote) (db : DBState) (p : PendingUpload)
    (hR : ∀ q, R q = RemoteResult.err)
    (hnd : (db.pending.map PendingUpload.id).Nodup)
    (hp : pendFind db.pending p.id = some p) :
    pendFind (syncPendingUploads true R db).pending p.id =
      if p.retryCount ≥ 3 then none else some (bumpRetry p) := by
  rw [syncPendingUploads_eq_foldl]
  have hmem : p ∈ sortPending db.pending := by
    have : p ∈ db.pending := List.mem_of_find?_eq_some hp
    simpa [sortPending] using this
  exact foldl_pending_find_self R (sortPending db.pending) db p
    (snapshot_ids_nodup db hnd) hmem hp (fun q _ => hR q)

theorem drain_cards_err (R : Remote) (db : DBState)
    (hR : ∀ q, R q = RemoteResult.err) :
    (syncPendingUploads true R db).cards = db.cards := by
  rw [syncPendingUploads_eq_foldl]
  exact foldl_cards_err R (sortPending db.pending) db (fun q _ => hR q)

theorem drain_ids_nodup (R : Remote) (db : DBState)
    (hnd : (db.pending.map PendingUpload.id).Nodup) :
    ((syncPendingUploads true R db).pending.map PendingUpload.id).Nodup := by
  rw [syncPendingUploads_eq_foldl]
  exact (foldl_ids_sublist R (sortPending db.pending) db).nodup hnd

theorem drain_pending_find_none (R : Remote) (db : DBState) (i : String)
    (h : pendFind db.pending i = none) :
    pendFind (syncPendingUploads true R db).pending i = none := by
  rw [syncPendingUploads_eq_foldl]
  have huntouched : ∀ q ∈ sortPending db.pending, q.id ≠ i := by
    intro q hq
    have hqmem : q ∈ db.pending := by simpa [sortPending] using hq
    exact (findBy_eq_none_iff PendingUpload.id db.pending i).mp h q hqmem
  rw [foldl_pending_find_untouched R (sortPending db.pending) db i huntouched]
  exact h

theorem drainN_succ (R : Remote) :
    ∀ (n : Nat) (db : DBState),
      drainN R (n + 1) db = syncPendingUploads true R (drainN R n db) := by
  intro n
  induction n with
  | zero => intro db; rfl
  | succ n ih =>
    intro db
    show drainN R (n + 1) (syncPendingUploads true R db) = _
    rw [ih (syncPendingUploads true R db)]
    rfl

theorem getCachedCards_congr (db1 db2 : DBState) (h : db1.cards = db2.cards)
    (u : String) : getCachedCards db1 u = getCachedCards db2 u := by
  unfold getCachedCards
  rw [h]

/-! ### Claim C1: bounded retries -/

/-- Claim C1, counterexample. The claim states that a pending write
whose drain attempts fail on 3 consecutive occasions is removed from
the queue exactly at the third failure. In the code the removal guard
compares the snapshot retry count taken before the increment
(`pending.retryCount >= 3`), so after three consecutive failing drain
passes the item is still in the queue, with stored retry count 3: the
claim is false at this input. -/
theorem C1_counterexample :
    pendFind (drainN (fun _ => RemoteResult.err) 3
        ⟨[], [⟨"p1", ⟨none, some "A", none, none, none, none⟩, "u", 0, 0⟩]⟩).pending
      "p1" =
      some ⟨"p1", ⟨none, some "A", none, none, none, none⟩, "u", 0, 3⟩ := by
  decide

/-- Claim C1, amended: for every pending write in the queue (fresh, with
retry count 0) whose remote create fails on every drain attempt, the
Sync Engine still has the item queued after 3 failing drain passes
(with stored retry count 3), removes it from the pending queue exactly
at the fourth failing pass, never attempts it again afterwards, and the
cards store — hence the result of `getCachedCards`, including the record
previously cached under the local-pending id — is unchanged by all these
failing passes. -/
theorem C1_bounded_retries_amended (R : Remote) (db : DBState) (p : PendingUpload)
    (hR : ∀ q, R q = RemoteResult.err)
    (hnd : (db.pending.map PendingUpload.id).Nodup)
    (hp : pendFind db.pending p.id = some p)
    (h0 : p.retryCount = 0) :
    pendFind (drainN R 3 db).pending p.id = some { p with retryCount := 3 } ∧
    pendFind (drainN R 4 db).pending p.id = none ∧
    (∀ n, 4 ≤ n → pendFind (drainN R n db).pending p.id = none) ∧
    (∀ n u, getCachedCards (drainN R n db) u = getCachedCards db u) := by
  have hnd1 : ((syncPendingUploads true R db).pending.map PendingUpload.id).Nodup :=
    drain_ids_nodup R db hnd
  have hnd2 := drain_ids_nodup R (syncPendingUploads true R db) hnd1
  have hnd3 := drain_ids_nodup R _ hnd2
  have h1 : pendFind (drainN R 1 db).pending p.id = some (bumpRetry p) := by
    show pendFind (syncPendingUploads true R db).pending p.id = _
    rw [drain_pending_find R db p hR hnd hp]
    simp [h0]
  have h2 : pendFind (drainN R 2 db).pending p.id =
      some (bumpRetry (bumpRetry p)) := by
    show pendFind (syncPendingUploads true R (syncPendingUploads true R db)).pending
      p.id = _
    have hstep := drain_pending_find R (syncPendingUploads true R db) (bumpRetry p)
      hR hnd1 h1
    simp only [bumpRetry_id] at hstep
    rw [hstep]
    simp [bumpRetry, h0]
  have h3 : pendFind (drainN R 3 db).pending p.id =
      some (bumpRetry (bumpRetry (bumpRetry p))) := by
    show pendFind (syncPendingUploads true R (syncPendingUploads true R
      (syncPendingUploads true R db))).pending p.id = _
    have hstep := drain_pending_find R
      (syncPendingUploads true R (syncPendingUploads true R db))
      (bumpRetry (bumpRetry p)) hR hnd2 h2
    simp only [bumpRetry_id] at hstep
    rw [hstep]
    simp [bumpRetry, h0]
  have hb3 : bumpRetry (bumpRetry (bumpRetry p)) = { p with retryCount := 3 } := by
    cases p with
    | mk a b c d e =>
      have he : e = 0 := h0
      subst he
      rfl
  have h4 : pendFind (drainN R 4 db).pending p.id = none := by
    show pendFind (syncPendingUploads true R (syncPendingUploads true R
      (syncPendingUploads true R (syncPendingUploads true R db)))).pending p.id = _
    have hstep := drain_pending_find R
      (syncPendingUploads true R (syncPendingUploads true R
        (syncPendingUploads true R db)))
      (bumpRetry (bumpRetry (bumpRetry p))) hR hnd3 h3
    simp only [bumpRetry_id] at hstep
    rw [hstep]
    simp [bumpRetry, h0]
  refine ⟨hb3 ▸ h3, h4, ?_, ?_⟩
  · have hind : ∀ k, pendFind (drainN R (4 + k) db).pending p.id = none := by
      intro k
      induction k with
      | zero => exact h4
      | succ k ih =>
        have heq : 4 + (k + 1) = (4 + k) + 1 := by omega
        rw [heq, drainN_succ]
        exact drain_pending_find_none R _ p.id ih
    intro n hn
    have hrw : n = 4 + (n - 4) := by omega
    rw [hrw]
    exact hind (n - 4)
  · have hcards : ∀ n, (drainN R n db).cards = db.cards := by
      intro n
      induction n with
      | zero => rfl
      | succ n ih =>
        rw [drainN_succ]
        rw [drain_cards_err R _ hR]
        exact ih
    intro n u
    exact getCachedCards_congr _ _ (hcards n) u

/-- Claim C1, witness: the amended theorem applied to a single-item
queue with an always-failing remote. -/
theorem C1_bounded_retries_amended_witness :
    pendFind (drainN (fun _ => RemoteResult.err) 3
        ⟨[⟨some "offline_t", some "A", none, none, some "u", some 1⟩],
          [⟨"p1", ⟨none, some "A", none, none, none, none⟩, "u", 0, 0⟩]⟩).pending
      "p1" =
      some ⟨"p1", ⟨none, some "A", none, none, none, none⟩, "u", 0, 3⟩ ∧
    pendFind (drainN (fun _ => RemoteResult.err) 4
        ⟨[⟨some "offline_t", some "A", none, none, some "u", some 1⟩],
          [⟨"p1", ⟨none, some "A", none, none, none, none⟩, "u", 0, 0⟩]⟩).pending
      "p1" = none ∧
    (∀ n, 4 ≤ n → pendFind (drainN (fun _ => RemoteResult.err) n
        ⟨[⟨some "offline_t", some "A", none, none, some "u", some 1⟩],
          [⟨"p1", ⟨none, some "A", none, none, none, none⟩, "u", 0, 0⟩]⟩).pending
      "p1" = none) ∧
    (∀ n u, getCachedCards (drainN (fun _ => RemoteResult.err) n
        ⟨[⟨some "offline_t", some "A", none, none, some "u", some 1⟩],
          [⟨"p1", ⟨none, some "A", none, none, none, none⟩, "u", 0, 0⟩]⟩) u =
      getCachedCards
        ⟨[⟨some "offline_t", some "A", none, none, some "u", some 1⟩],
          [⟨"p1", ⟨none, some "A", none, none, none, none⟩, "u", 0, 0⟩]⟩ u) :=
  C1_bounded_retries_amended (fun _ => RemoteResult.err)
    ⟨[⟨some "offline_t", some "A", none, none, some "u", some 1⟩],
      [⟨"p1", ⟨none, some "A", none, none, none, none⟩, "u", 0, 0⟩]⟩
    ⟨"p1", ⟨none, some "A", none, none, none, none⟩, "u", 0, 0⟩
    (fun _ => rfl) (by decide) (by decide) rfl

/-! ### Claim C2: FIFO drain order -/

/-- Claim C2, counterexample. Two items are enqueued in the order A
(queue id "b1") then B (queue id "a1"). The drain snapshot comes from
IndexedDB `getAll`, which returns records in ascending key order, so the
drain attempts B ("a1") before A ("b1"): processing does not follow
FIFO enqueue order, refuting the claim at this input. -/
theorem C2_counterexample :
    syncAttempts true (fun _ => RemoteResult.err)
        (addPendingUpload (addPendingUpload ⟨[], []⟩ "u"
            ⟨none, some "A", none, none, none, none⟩ "b1" 1) "u"
          ⟨none, some "B", none, none, none, none⟩ "a1" 2) = ["a1", "b1"] ∧
    (addPendingUpload (addPendingUpload ⟨[], []⟩ "u"
            ⟨none, some "A", none, none, none, none⟩ "b1" 1) "u"
          ⟨none, some "B", none, none, none, none⟩ "a1" 2).pending.map
        PendingUpload.id = ["b1", "a1"] := by
  constructor
  · decide
  · decide

/-- Claim C2, amended: a full drain pass attempts exactly the queued
items, in ascending lexicographic order of their queue ids (IndexedDB
key order) rather than enqueue order; the attempt sequence is a
permutation of the queue ids, and it coincides with the stored enqueue
sequence exactly when the queue ids happen to be in ascending order. -/
theorem C2_fifo_amended (db : DBState) (R : Remote) :
    (syncAttempts true R db).Pairwise (fun a b => strLE a b = true) ∧
    (syncAttempts true R db).Perm (db.pending.map PendingUpload.id) ∧
    ((db.pending.map PendingUpload.id).Pairwise (fun a b => strLE a b = true) →
      syncAttempts true R db = db.pending.map PendingUpload.id) := by
  haveI : IsTotal PendingUpload pendLE := ⟨pendLE_total⟩
  haveI : IsTrans PendingUpload pendLE := ⟨fun a b c => pendLE_trans a b c⟩
  rw [syncAttempts_eq]
  refine ⟨?_, ?_, ?_⟩
  · have hs : List.Sorted pendLE (sortPending db.pending) :=
      List.sorted_insertionSort pendLE db.pending
    exact List.Pairwise.map PendingUpload.id (fun a b h => h) hs
  · exact (List.perm_insertionSort pendLE db.pending).map PendingUpload.id
  · intro hsorted
    have hpend : List.Sorted pendLE db.pending :=
      List.Pairwise.of_map PendingUpload.id (fun a b h => h) hsorted
    show (List.insertionSort pendLE db.pending).map PendingUpload.id =
      db.pending.map PendingUpload.id
    rw [List.Sorted.insertionSort_eq hpend]

/-- Claim C2, witness: the amended theorem applied to a one-item queue,
whose id sequence is trivially ascending, so the attempt order equals
the enqueue order there. -/
theorem C2_fifo_amended_witness :
    (syncAttempts true (fun _ => RemoteResult.err)
        (addPendingUpload ⟨[], []⟩ "u"
          ⟨none, some "A", none, none, none, none⟩ "a1" 1)).Pairwise
      (fun a b => strLE a b = true) ∧
    (syncAttempts true (fun _ => RemoteResult.err)
        (addPendingUpload ⟨[], []⟩ "u"
          ⟨none, some "A", none, none, none, none⟩ "a1" 1)).Perm
      ((addPendingUpload ⟨[], []⟩ "u"
          ⟨none, some "A", none, none, none, none⟩ "a1" 1).pending.map
        PendingUpload.id) ∧
    syncAttempts true (fun _ => RemoteResult.err)
        (addPendingUpload ⟨[], []⟩ "u"
          ⟨none, some "A", none, none, none, none⟩ "a1" 1) =
      (addPendingUpload ⟨[], []⟩ "u"
          ⟨none, some "A", none, none, none, none⟩ "a1" 1).pending.map
        PendingUpload.id :=
  ⟨(C2_fifo_amended (addPendingUpload ⟨[], []⟩ "u"
      ⟨none, some "A", none, none, none, none⟩ "a1" 1) (fun _ => RemoteResult.err)).1,
   (C2_fifo_amended (addPendingUpload ⟨[], []⟩ "u"
      ⟨none, some "A", none, none, none, none⟩ "a1" 1) (fun _ => RemoteResult.err)).2.1,
   (C2_fifo_amended (addPendingUpload ⟨[], []⟩ "u"
      ⟨none, some "A", none, none, none, none⟩ "a1" 1) (fun _ => RemoteResult.err)).2.2
     (by decide)⟩

/-! ### Claim C3: successful sync and the old offline cache entry -/

theorem offline_append_ne_empty (t : String) : (("offline_" ++ t) == "") = false := by
  refine beq_eq_false_iff_ne.mpr ?_
  intro h
  have hlen := congrArg String.length h
  rw [String.length_append] at hlen
  have h8 : "offline_".length = 8 := rfl
  have hz : "".length = 0 := rfl
  rw [h8, hz] at hlen
  omega

theorem drain_singleton_ok (R : Remote) (db : DBState) (p : PendingUpload)
    (c : BusinessCard) (hdb : db.pending = [p]) (hR : R p = RemoteResult.ok c) :
    syncPendingUploads true R db = removePendingUpload (cacheCard db c) p.id := by
  rw [syncPendingUploads_eq_foldl, hdb]
  show syncStep R db p = _
  unfold syncStep
  rw [hR]

/-- Claim C3, counterexample. An offline save caches a record under
"offline_t1" and queues the payload; a drain with a succeeding remote
create (server id "srv1") empties the queue and caches the confirmed
record, but the cache entry under the old `offline_`-prefixed id is
still present afterwards — the sync loop never deletes it (it does not
even know the temp id, which is not stored in the pending item), so the
claim that the offline-prefixed entry no longer exists is false at this
input. -/
theorem C3_counterexample :
    (cardsFind (syncPendingUploads true
        (fun _ => RemoteResult.ok
          ⟨some "srv1", some "Jane Doe", some "555-0100", none, some "u", some 7⟩)
        (EnhancedStorageService.saveCardOffline ⟨[], []⟩ "u"
          ⟨none, some "Jane Doe", some "555-0100", none, none, none⟩
          "t1" "p1" 5).2).cards "offline_t1").isSome = true ∧
    (syncPendingUploads true
        (fun _ => RemoteResult.ok
          ⟨some "srv1", some "Jane Doe", some "555-0100", none, some "u", some 7⟩)
        (EnhancedStorageService.saveCardOffline ⟨[], []⟩ "u"
          ⟨none, some "Jane Doe", some "555-0100", none, none, none⟩
          "t1" "p1" 5).2).pending = [] := by
  constructor
  · decide
  · decide

/-- Claim C3, amended: when the remote create succeeds during a drain of
an offline-saved record, the confirmed record (with its server-assigned
id) is cached and the pending item is dequeued, but the cache entry
stored under the old `offline_`-prefixed local-pending id is NOT
removed: it remains in the cards store next to the confirmed record. -/
theorem C3_sync_success_amended (userId : String) (cardData : BusinessCard)
    (tempUuid pendUuid : String) (now : Nat) (serverCard : BusinessCard) (sid : String)
    (R : Remote)
    (hR : ∀ q, R q = RemoteResult.ok serverCard)
    (hid : serverCard.id = some sid)
    (h1 : (sid == "") = false)
    (h2 : (("offline_" ++ tempUuid) == sid) = false) :
    (syncPendingUploads true R
        (EnhancedStorageService.saveCardOffline ⟨[], []⟩ userId cardData
          tempUuid pendUuid now).2).pending = [] ∧
    cardsFind (syncPendingUploads true R
        (EnhancedStorageService.saveCardOffline ⟨[], []⟩ userId cardData
          tempUuid pendUuid now).2).cards
      ("offline_" ++ tempUuid) =
      some (EnhancedStorageService.saveCardOffline ⟨[], []⟩ userId cardData
        tempUuid pendUuid now).1 ∧
    cardsFind (syncPendingUploads true R
        (EnhancedStorageService.saveCardOffline ⟨[], []⟩ userId cardData
          tempUuid pendUuid now).2).cards
      sid = some serverCard := by
  have hne := offline_append_ne_empty tempUuid
  have hout : (EnhancedStorageService.saveCardOffline ⟨[], []⟩ userId cardData
      tempUuid pendUuid now).2 =
      DBState.mk
        [BusinessCard.mk (some ("offline_" ++ tempUuid)) cardData.name cardData.phone
          cardData.mobile cardData.userId (some (cardData.timestamp.getD now))]
        [PendingUpload.mk pendUuid
          (BusinessCard.mk none cardData.name cardData.phone cardData.mobile
            cardData.userId cardData.timestamp) userId now 0] := by
    unfold EnhancedStorageService.saveCardOffline addPendingUpload cacheCard
    simp [truthy, hne, pendPut, cardsPut, putBy]
  have hfst : (EnhancedStorageService.saveCardOffline ⟨[], []⟩ userId cardData
      tempUuid pendUuid now).1 =
      BusinessCard.mk (some ("offline_" ++ tempUuid)) cardData.name cardData.phone
        cardData.mobile cardData.userId (some (cardData.timestamp.getD now)) := rfl
  rw [hout, hfst]
  rw [drain_singleton_ok R _ (PendingUpload.mk pendUuid
    (BusinessCard.mk none cardData.name cardData.phone cardData.mobile
      cardData.userId cardData.timestamp) userId now 0) serverCard rfl (hR _)]
  unfold cacheCard removePendingUpload
  have htr : truthy serverCard.id = true := by simp [truthy, hid, h1]
  rw [if_pos htr]
  have hkey : cardKey serverCard = sid := by simp [cardKey, hid]
  have hoffkey : cardKey (BusinessCard.mk (some ("offline_" ++ tempUuid)) cardData.name
      cardData.phone cardData.mobile cardData.userId
      (some (cardData.timestamp.getD now))) = "offline_" ++ tempUuid := rfl
  refine ⟨?_, ?_, ?_⟩
  · show pendDelete [PendingUpload.mk pendUuid
      (BusinessCard.mk none cardData.name cardData.phone cardData.mobile
        cardData.userId cardData.timestamp) userId now 0] pendUuid = []
    simp [pendDelete, deleteBy]
  · show cardsFind (cardsPut _ serverCard) ("offline_" ++ tempUuid) = _
    simp [cardsPut, putBy, cardsFind, findBy, List.find?, hoffkey, hkey, h2, hne]
  · show cardsFind (cardsPut _ serverCard) sid = _
    simp [cardsPut, putBy, cardsFind, findBy, List.find?, hoffkey, hkey, h2, hne]

/-- Claim C3, witness: the amended theorem at the offline save of a
concrete card followed by a drain whose remote create returns server id
"srv1". -/
theorem C3_sync_success_amended_witness :
    (syncPendingUploads true
        (fun _ => RemoteResult.ok
          ⟨some "srv1", some "Jane Doe", some "555-0100", none, some "u", some 7⟩)
        (EnhancedStorageService.saveCardOffline ⟨[], []⟩ "u"
          ⟨none, some "Jane Doe", some "555-0100", none, none, none⟩
          "t1" "p1" 5).2).pending = [] ∧
    cardsFind (syncPendingUploads true
        (fun _ => RemoteResult.ok
          ⟨some "srv1", some "Jane Doe", some "555-0100", none, some "u", some 7⟩)
        (EnhancedStorageService.saveCardOffline ⟨[], []⟩ "u"
          ⟨none, some "Jane Doe", some "555-0100", none, none, none⟩
          "t1" "p1" 5).2).cards
      ("offline_" ++ "t1") =
      some (EnhancedStorageService.saveCardOffline ⟨[], []⟩ "u"
        ⟨none, some "Jane Doe", some "555-0100", none, none, none⟩
        "t1" "p1" 5).1 ∧
    cardsFind (syncPendingUploads true
        (fun _ => RemoteResult.ok
          ⟨some "srv1", some "Jane Doe", some "555-0100", none, some "u", some 7⟩)
        (EnhancedStorageService.saveCardOffline ⟨[], []⟩ "u"
          ⟨none, some "Jane Doe", some "555-0100", none, none, none⟩
          "t1" "p1" 5).2).cards
      "srv1" =
      some ⟨some "srv1", some "Jane Doe", some "555-0100", none, some "u", some 7⟩ :=
  C3_sync_success_amended "u"
    ⟨none, some "Jane Doe", some "555-0100", none, none, none⟩ "t1" "p1" 5
    ⟨some "srv1", some "Jane Doe", some "555-0100", none, some "u", some 7⟩ "srv1"
    (fun _ => RemoteResult.ok
      ⟨some "srv1", some "Jane Doe", some "555-0100", none, some "u", some 7⟩)
    (fun _ => rfl) rfl (by decide) (by decide)

/-! ### Duplicate-detector lemmas -/

theorem strBeq_comm (a b : String) : (a == b) = (b == a) := by
  by_cases h : a = b
  · simp [h]
  · simp [h, Ne.symm h]

theorem any_any_swap (l1 l2 : List String) (f g : String → String → Bool)
    (hfg : ∀ a b, f a b = g b a) :
    (l1.any fun a => l2.any fun b => f a b) =
      (l2.any fun b => l1.any fun a => g b a) := by
  rw [Bool.eq_iff_iff]
  simp only [List.any_eq_true]
  constructor
  · rintro ⟨a, ha, b, hb, hab⟩
    exact ⟨b, hb, a, ha, (hfg a b) ▸ hab⟩
  · rintro ⟨b, hb, a, ha, hab⟩
    exact ⟨a, ha, b, hb, (hfg a b).symm ▸ hab⟩

theorem nameMatch_comm (x y : BusinessCard) : nameMatch x y = nameMatch y x := by
  unfold nameMatch
  rw [strBeq_comm]
  cases truthy x.name <;> cases truthy y.name <;> simp

theorem phoneMatch_comm (x y : BusinessCard) : phoneMatch x y = phoneMatch y x := by
  unfold phoneMatch
  exact any_any_swap (truthyList [x.phone, x.mobile]) (truthyList [y.phone, y.mobile]) _ _
    (by
      intro a b
      cases ha : (a == "") <;> cases hb : (b == "") <;>
        simp [ha, hb, strBeq_comm (stripNonDigits a) (stripNonDigits b)])

theorem listIsInitial_append : ∀ (as bs : List Char), listIsInitial as (as ++ bs) = true
  | [], _ => rfl
  | a :: as, bs => by simp [listIsInitial, listIsInitial_append as bs]

theorem strStartsWith_append (t : String) :
    strStartsWith ("offline_" ++ t) "offline_" = true := by
  unfold strStartsWith
  rw [String.data_append]
  exact listIsInitial_append _ _

/-! ### Claim C4: phone normalization -/

/-- Claim C4, counterexample. The claim states that the candidate phone
"+1 (555) 123-4567" and the corpus phone "555.123.4567" are treated as
one match. The detector compares the raw digit strings, "15551234567"
versus "5551234567", which differ in the leading country code, so the
corpus record is NOT returned: the duplicate check on a one-record
corpus returns the empty list, refuting the claim. -/
theorem C4_counterexample :
    EnhancedStorageService.checkDuplicatesOffline
        ⟨[⟨some "c1", none, some "555.123.4567", none, some "u", some 5⟩], []⟩ "u"
        ⟨none, none, some "+1 (555) 123-4567", none, none, none⟩ = [] := by
  decide

/-- Claim C4, amended: phone values match exactly when their digit
strings are equal. "+1 (555) 123-4567" (digits "15551234567") and
"555.123.4567" (digits "5551234567") are NOT a match — the leading
country code is not dropped — while "(555) 123-4567" and "555.123.4567"
are a match, and "5551234567" and "5559999999" are not. -/
theorem C4_phone_normalization_amended :
    stripNonDigits "+1 (555) 123-4567" = "15551234567" ∧
    stripNonDigits "555.123.4567" = "5551234567" ∧
    EnhancedStorageService.checkDuplicatesOffline
        ⟨[⟨some "c1", none, some "555.123.4567", none, some "u", some 5⟩], []⟩ "u"
        ⟨none, none, some "+1 (555) 123-4567", none, none, none⟩ = [] ∧
    EnhancedStorageService.checkDuplicatesOffline
        ⟨[⟨some "c1", none, some "555.123.4567", none, some "u", some 5⟩], []⟩ "u"
        ⟨none, none, some "(555) 123-4567", none, none, none⟩ =
      [⟨some "c1", none, some "555.123.4567", none, some "u", some 5⟩] ∧
    EnhancedStorageService.checkDuplicatesOffline
        ⟨[⟨some "c1", none, some "5559999999", none, some "u", some 5⟩], []⟩ "u"
        ⟨none, none, some "5551234567", none, none, none⟩ = [] := by
  refine ⟨by decide, by decide, by decide, by decide, by decide⟩

/-! ### Claim C5: empty-after-stripping phone values -/

/-- Claim C5, counterexample. Candidate phone "abc" and corpus phone
"xyz" both strip to the empty digit string; the comparison
`"" == ""` succeeds, so the detector DOES report a phone match and
returns the corpus record, refuting the claim that empty-after-stripping
values are never considered a match. -/
theorem C5_counterexample :
    EnhancedStorageService.checkDuplicatesOffline
        ⟨[⟨some "c1", none, some "xyz", none, some "u", some 5⟩], []⟩ "u"
        ⟨none, none, some "abc", none, none, none⟩ =
      [⟨some "c1", none, some "xyz", none, some "u", some 5⟩] := by
  decide

/-- Claim C5, amended: two truthy phone values that both become empty
after stripping non-digits ARE considered a phone match (empty equals
empty), so the detector reports records with digit-free phone values as
duplicates of each other. -/
theorem C5_empty_after_strip_amended (cand corpusRec : BusinessCard) (s t : String)
    (hcs : cand.phone = some s) (hrs : corpusRec.phone = some t)
    (hs : (s == "") = false) (ht : (t == "") = false)
    (hse : stripNonDigits s = "") (hte : stripNonDigits t = "") :
    phoneMatch cand corpusRec = true ∧ isDuplicate cand corpusRec = true := by
  have hpm : phoneMatch cand corpusRec = true := by
    unfold phoneMatch truthyList
    rw [hcs, hrs]
    have hsne : s ≠ "" := by simpa using hs
    have htne : t ≠ "" := by simpa using ht
    simp [hsne, htne, hs, ht, hse, hte]
  refine ⟨hpm, ?_⟩
  unfold isDuplicate
  simp [hpm]

/-- Claim C5, witness: the amended theorem at phone values "abc" and
"xyz". -/
theorem C5_empty_after_strip_amended_witness :
    phoneMatch ⟨none, none, some "abc", none, none, none⟩
      ⟨some "c1", none, some "xyz", none, some "u", some 5⟩ = true ∧
    isDuplicate ⟨none, none, some "abc", none, none, none⟩
      ⟨some "c1", none, some "xyz", none, some "u", some 5⟩ = true :=
  C5_empty_after_strip_amended
    ⟨none, none, some "abc", none, none, none⟩
    ⟨some "c1", none, some "xyz", none, some "u", some 5⟩
    "abc" "xyz" rfl rfl (by decide) (by decide) (by decide) (by decide)

/-! ### Claim C6: duplicate symmetry -/

/-- Claim C6: the per-record duplicate predicate of
`checkDuplicatesOffline` (name match OR phone match) is symmetric:
X is a duplicate of Y exactly when Y is a duplicate of X. -/
theorem C6_duplicate_symmetry (x y : BusinessCard) :
    isDuplicate x y = isDuplicate y x := by
  unfold isDuplicate
  rw [nameMatch_comm, phoneMatch_comm]

/-! ### Claim C7: offline and fallback saves -/

/-- Claim C7: whenever a save runs offline, or runs online but the
remote create throws, `EnhancedStorageService.saveCard` absorbs the
error and performs the offline save: the returned record is the payload
under a freshly generated id carrying the `offline_` marker (so its id
starts with "offline_"), the original payload (with its id cleared, per
the PendingWrite contract) is enqueued under the fresh queue id, and the
returned record is cached under its temp id. -/
theorem C7_offline_save (online : Bool) (remoteCreate : BusinessCard → RemoteResult)
    (db : DBState) (userId : String) (cardData : BusinessCard)
    (tempUuid pendUuid : String) (now : Nat)
    (h : online = false ∨ remoteCreate cardData = RemoteResult.err) :
    (EnhancedStorageService.saveCard online remoteCreate db userId cardData
        tempUuid pendUuid now).1 =
      BusinessCard.mk (some ("offline_" ++ tempUuid)) cardData.name cardData.phone
        cardData.mobile cardData.userId (some (cardData.timestamp.getD now)) ∧
    strStartsWith ((EnhancedStorageService.saveCard online remoteCreate db userId
      cardData tempUuid pendUuid now).1.id.getD "") "offline_" = true ∧
    pendFind (EnhancedStorageService.saveCard online remoteCreate db userId cardData
        tempUuid pendUuid now).2.pending pendUuid =
      some (PendingUpload.mk pendUuid
        (BusinessCard.mk none cardData.name cardData.phone cardData.mobile
          cardData.userId cardData.timestamp) userId now 0) ∧
    cardsFind (EnhancedStorageService.saveCard online remoteCreate db userId cardData
        tempUuid pendUuid now).2.cards ("offline_" ++ tempUuid) =
      some (EnhancedStorageService.saveCard online remoteCreate db userId cardData
        tempUuid pendUuid now).1 := by
  have hsco : EnhancedStorageService.saveCard online remoteCreate db userId cardData
      tempUuid pendUuid now =
      EnhancedStorageService.saveCardOffline db userId cardData tempUuid pendUuid now := by
    rcases h with h | h
    · simp [EnhancedStorageService.saveCard, h]
    · cases honline : online
      · simp [EnhancedStorageService.saveCard]
      · simp [EnhancedStorageService.saveCard, h]
  rw [hsco]
  have hne := offline_append_ne_empty tempUuid
  refine ⟨rfl, strStartsWith_append tempUuid, ?_, ?_⟩
  · show pendFind (cacheCard (addPendingUpload db userId cardData pendUuid now) _).pending
      pendUuid = _
    rw [cacheCard_pending]
    exact findBy_putBy_self PendingUpload.id db.pending _
  · show cardsFind (cacheCard (addPendingUpload db userId cardData pendUuid now) _).cards
      ("offline_" ++ tempUuid) = _
    unfold cacheCard
    rw [if_pos (by simp [truthy, hne])]
    exact findBy_putBy_self cardKey _ _

/-- Claim C7, witness: an offline save of a concrete card into an empty
store. -/
theorem C7_offline_save_witness :
    (EnhancedStorageService.saveCard false (fun _ => RemoteResult.err) ⟨[], []⟩ "u"
        ⟨none, some "Jane Doe", some "555-0100", none, none, none⟩ "t1" "p1" 5).1 =
      BusinessCard.mk (some ("offline_" ++ "t1")) (some "Jane Doe") (some "555-0100")
        none none (some 5) ∧
    strStartsWith ((EnhancedStorageService.saveCard false (fun _ => RemoteResult.err)
      ⟨[], []⟩ "u" ⟨none, some "Jane Doe", some "555-0100", none, none, none⟩
      "t1" "p1" 5).1.id.getD "") "offline_" = true ∧
    pendFind (EnhancedStorageService.saveCard false (fun _ => RemoteResult.err)
        ⟨[], []⟩ "u" ⟨none, some "Jane Doe", some "555-0100", none, none, none⟩
        "t1" "p1" 5).2.pending "p1" =
      some (PendingUpload.mk "p1"
        (BusinessCard.mk none (some "Jane Doe") (some "555-0100") none none none)
        "u" 5 0) ∧
    cardsFind (EnhancedStorageService.saveCard false (fun _ => RemoteResult.err)
        ⟨[], []⟩ "u" ⟨none, some "Jane Doe", some "555-0100", none, none, none⟩
        "t1" "p1" 5).2.cards ("offline_" ++ "t1") =
      some (EnhancedStorageService.saveCard false (fun _ => RemoteResult.err)
        ⟨[], []⟩ "u" ⟨none, some "Jane Doe", some "555-0100", none, none, none⟩
        "t1" "p1" 5).1 :=
  C7_offline_save false (fun _ => RemoteResult.err) ⟨[], []⟩ "u"
    ⟨none, some "Jane Doe", some "555-0100", none, none, none⟩ "t1" "p1" 5
    (Or.inl rfl)

/-! ### Claim C8: updates on local-pending ids -/

/-- Claim C8, counterexample. The claim states that an update on a
record whose id carries the `offline_` marker reports failure and does
not return success. In the code that branch caches the card and returns
normally: at this concrete input the call resolves with success. -/
theorem C8_counterexample :
    (EnhancedStorageService.updateCard true (fun _ => false) ⟨[], []⟩
        ⟨some "offline_x", some "A", none, none, none, none⟩).1 =
      EnhancedStorageService.UpdateResult.ok := by
  decide

/-- Claim C8, amended: an update on a record whose id carries the
`offline_` marker updates only the Local Store cache entry and resolves
successfully (no failure is reported), independently of connectivity
and of the remote oracle; the pending queue is untouched. The
not-synced failure is reported only for confirmed ids while offline. -/
theorem C8_offline_update_amended (online : Bool) (remoteUpdate : BusinessCard → Bool)
    (db : DBState) (cardData : BusinessCard)
    (h : strStartsWith (cardData.id.getD "") "offline_" = true) :
    EnhancedStorageService.updateCard online remoteUpdate db cardData =
      (EnhancedStorageService.UpdateResult.ok, cacheCard db cardData) ∧
    (EnhancedStorageService.updateCard online remoteUpdate db cardData).2.pending =
      db.pending := by
  constructor
  · unfold EnhancedStorageService.updateCard
    rw [if_pos h]
  · unfold EnhancedStorageService.updateCard
    rw [if_pos h]
    exact cacheCard_pending db cardData

/-- Claim C8, witness: the amended theorem at a concrete offline-id
card. -/
theorem C8_offline_update_amended_witness :
    EnhancedStorageService.updateCard true (fun _ => false) ⟨[], []⟩
        ⟨some "offline_x", some "A", none, none, none, none⟩ =
      (EnhancedStorageService.UpdateResult.ok,
        cacheCard ⟨[], []⟩ ⟨some "offline_x", some "A", none, none, none, none⟩) ∧
    (EnhancedStorageService.updateCard true (fun _ => false) ⟨[], []⟩
        ⟨some "offline_x", some "A", none, none, none, none⟩).2.pending = [] :=
  C8_offline_update_amended true (fun _ => false) ⟨[], []⟩
    ⟨some "offline_x", some "A", none, none, none, none⟩ (by decide)

/-! ### Claim C9: duplicate check under remote failure -/

/-- Claim C9, counterexample. Online with the remote listing failing,
the facade returns the empty list: `StorageService.checkForDuplicates`
swallows the thrown error internally and resolves with `[]`, so the
facade catch branch that would fall back to the cached corpus never
runs. The cached corpus here contains a phone duplicate of the
candidate, so the claimed local-fallback result is nonempty and differs
from the actual result. -/
theorem C9_counterexample :
    EnhancedStorageService.checkForDuplicates true none
        ⟨[⟨some "c1", none, some "555-0100", none, some "u", some 3⟩], []⟩ "u"
        ⟨none, none, some "5550100", none, none, none⟩ = [] ∧
    EnhancedStorageService.checkDuplicatesOffline
        ⟨[⟨some "c1", none, some "555-0100", none, some "u", some 3⟩], []⟩ "u"
        ⟨none, none, some "5550100", none, none, none⟩ =
      [⟨some "c1", none, some "555-0100", none, some "u", some 3⟩] ∧
    ([] : List BusinessCard) ≠
      [⟨some "c1", none, some "555-0100", none, some "u", some 3⟩] := by
  refine ⟨by decide, by decide, by decide⟩

/-- Claim C9, amended: when online and the remote listing throws, the
duplicate check resolves with the empty list (the remote layer swallows
its own error), not with the local fallback; the cached corpus is
consulted only when offline, and a successful remote listing is
filtered with the same per-record duplicate predicate. -/
theorem C9_remote_failure_amended (db : DBState) (userId : String)
    (cardData : BusinessCard) (corpus : List BusinessCard) :
    EnhancedStorageService.checkForDuplicates true none db userId cardData = [] ∧
    (∀ r, EnhancedStorageService.checkForDuplicates false r db userId cardData =
      EnhancedStorageService.checkDuplicatesOffline db userId cardData) ∧
    EnhancedStorageService.checkForDuplicates true (some corpus) db userId cardData =
      corpus.filter (fun existingCard => isDuplicate cardData existingCard) :=
  ⟨rfl, fun _ => rfl, rfl⟩

/-! ### Claim C10: caching an id-less record is a no-op -/

/-- Claim C10: `cacheCard` on a record whose id is absent or empty
returns with the whole store state unchanged — no write happens and no
error is raised. -/
theorem C10_cacheCard_noop (db : DBState) (card : BusinessCard)
    (h : card.id = none ∨ card.id = some "") :
    cacheCard db card = db := by
  unfold cacheCard
  rcases h with h | h <;> simp [truthy, h]

/-- Claim C10, witness: caching an id-less record over a nonempty store
leaves it unchanged. -/
theorem C10_cacheCard_noop_witness :
    cacheCard ⟨[⟨some "c1", some "A", none, none, some "u", some 3⟩], []⟩
        ⟨none, some "B", none, none, none, none⟩ =
      ⟨[⟨some "c1", some "A", none, none, some "u", some 3⟩], []⟩ :=
  C10_cacheCard_noop ⟨[⟨some "c1", some "A", none, none, some "u", some 3⟩], []⟩
    ⟨none, some "B", none, none, none, none⟩ (Or.inl rfl)
